import Mathlib

/-!
Shallow embedding of `isc_to_nll.py` (class `ISCBull2NLLocObs`), the
ISF-bulletin → NLLoc-observation converter, together with proofs about the
behaviour of its components: the station-registry loader
(`__read_isc_stations`), the bulletin splitter (the two `re.split` calls),
the phase-block parser, the quality-to-uncertainty map (`__qual2err`), the
station resolution chain, the pick reconciler (`__average_pick`), the
output sort and the output-path handling.

Python-level behaviour that the source relies on is modelled explicitly:
fallible operations return `Except PyErr`, `datetime.time` attribute access
goes through a string-keyed attribute table (the source reads the
non-existent attributes `msecond` and `cls.isc2gfn_alias_dic`, which raise
`AttributeError` at run time), machine floats are modelled as exact
rationals (all float arithmetic performed by the source on realistic
bulletin values is exact in binary floating point), and `datetime.date`
values are modelled by their proleptic ordinal (a natural number), on which
`+ timedelta(days=1)` is `+ 1`.
-/

/-- Python exception classes that the modelled code can raise. -/
inductive PyErr where
  | attributeError (name : String)
  | indexError
  | keyError
  | valueError
  | typeError
  | osError
  | zeroDivisionError
  deriving DecidableEq, Repr

/-- Python whitespace for `str.strip` / the regex class `\s` (ASCII range). -/
def pyIsSpace (c : Char) : Bool :=
  c = ' ' || c = '\t' || c = '\n' || c = '\r' || c = '\x0b' || c = '\x0c'

/-- `str.strip()` on a character list: drop whitespace from both ends. -/
def pyStripL (cs : List Char) : List Char :=
  ((cs.dropWhile pyIsSpace).reverse.dropWhile pyIsSpace).reverse

/-- `str.strip()` on a string. -/
def pyStrip (s : String) : String := String.mk (pyStripL s.data)

/-- Python slicing `s[a:b]` for `0 ≤ a ≤ b`: never raises, clamps to the
string's length. -/
def pySlice (s : String) (a b : Nat) : String :=
  String.mk ((s.data.drop a).take (b - a))

/-- Python indexing `s[i]` for `i ≥ 0`: raises `IndexError` when the string
is too short. -/
def pyIndex (s : String) (i : Nat) : Except PyErr Char :=
  match s.data[i]? with
  | some c => .ok c
  | none => .error .indexError

/-- Python 2 `str.isalnum()`: nonempty and every character alphanumeric. -/
def pyIsAlnum (s : String) : Bool :=
  !s.data.isEmpty && s.data.all Char.isAlphanum

/-- Digit run to a natural number (most significant first). -/
def digitsToNat (cs : List Char) : Nat :=
  cs.foldl (fun a c => 10 * a + (c.toNat - 48)) 0

/-- The mantissa part of Python `float(...)`: digits with an optional point,
at least one digit overall.  Returns the value and the unconsumed rest. -/
def pyFloatMantissa (cs : List Char) : Option (ℚ × List Char) :=
  let ip := cs.takeWhile Char.isDigit
  let r1 := cs.dropWhile Char.isDigit
  match r1 with
  | '.' :: r2 =>
    let fp := r2.takeWhile Char.isDigit
    let r3 := r2.dropWhile Char.isDigit
    if ip.isEmpty && fp.isEmpty then none
    else some ((digitsToNat ip : ℚ) + (digitsToNat fp : ℚ) / 10 ^ fp.length, r3)
  | _ => if ip.isEmpty then none else some ((digitsToNat ip : ℚ), r1)

/-- The optional exponent part of Python `float(...)`. -/
def pyFloatExp (cs : List Char) : Option (ℤ × List Char) :=
  match cs with
  | 'e' :: r | 'E' :: r =>
    let (sg, r1) : ℤ × List Char :=
      match r with
      | '+' :: r' => (1, r')
      | '-' :: r' => (-1, r')
      | _ => (1, r)
    let ds := r1.takeWhile Char.isDigit
    if ds.isEmpty then none
    else some (sg * (digitsToNat ds : ℤ), r1.dropWhile Char.isDigit)
  | _ => some (0, cs)

/-- Python 2 `float(s)` on decimal literals: strips whitespace, then
`[+-] digits [. digits] [(e|E) [+-] digits]` (the special forms
`inf`/`infinity`/`nan`, which never occur in bulletin numeric fields, are
outside the modelled grammar).  `none` models `ValueError`. -/
def pyFloat (s : String) : Option ℚ :=
  let cs := pyStripL s.data
  let (sg, cs1) : ℚ × List Char :=
    match cs with
    | '+' :: r => (1, r)
    | '-' :: r => (-1, r)
    | _ => (1, cs)
  match pyFloatMantissa cs1 with
  | none => none
  | some (m, r1) =>
    match pyFloatExp r1 with
    | none => none
    | some (e, r2) => if r2.isEmpty then some (sg * m * (10 : ℚ) ^ e) else none

/-- `datetime.time`: hours, minutes, seconds, microseconds. -/
structure Time where
  hour : Nat
  minute : Nat
  second : Nat
  microsecond : Nat
  deriving DecidableEq, Repr

/-- `datetime.time` comparison: lexicographic on
(hour, minute, second, microsecond). -/
def timeLt (a b : Time) : Bool :=
  a.hour < b.hour ||
    (a.hour = b.hour && (a.minute < b.minute ||
      (a.minute = b.minute && (a.second < b.second ||
        (a.second = b.second && a.microsecond < b.microsecond)))))

/-- Non-strict counterpart of `timeLt`. -/
def timeLe (a b : Time) : Bool := !timeLt b a

/-- `strptime`'s `%H`/`%M`/`%S` field: one or two digits, greedy. -/
def parse12 (cs : List Char) : Option (Nat × List Char) :=
  match cs with
  | [] => none
  | [a] => if a.isDigit then some (a.toNat - 48, []) else none
  | a :: b :: r =>
    if a.isDigit then
      if b.isDigit then some ((a.toNat - 48) * 10 + (b.toNat - 48), r)
      else some (a.toNat - 48, b :: r)
    else none

/-- `"%H:%M:%S"` body: the three numeric fields with `:` separators,
range-checked as by the `datetime` constructor. -/
def parseHMS (cs : List Char) : Option (Nat × Nat × Nat × List Char) :=
  match parse12 cs with
  | none => none
  | some (h, r1) =>
    match r1 with
    | ':' :: r2 =>
      match parse12 r2 with
      | none => none
      | some (m, r3) =>
        match r3 with
        | ':' :: r4 =>
          match parse12 r4 with
          | none => none
          | some (s, r5) =>
            if h ≤ 23 && m ≤ 59 && s ≤ 59 then some (h, m, s, r5) else none
        | _ => none
    | _ => none

/-- `datetime.strptime(s, "%H:%M:%S")` (result's `.time()`). -/
def strptimeHMS (s : String) : Option Time :=
  match parseHMS s.data with
  | some (h, m, sec, []) => some ⟨h, m, sec, 0⟩
  | _ => none

/-- `datetime.strptime(s, "%H:%M:%S.%f")` (result's `.time()`): `%f` is one
to six digits, scaled to microseconds. -/
def strptimeHMSf (s : String) : Option Time :=
  match parseHMS s.data with
  | some (h, m, sec, '.' :: r) =>
    let ds := r.takeWhile Char.isDigit
    if r.dropWhile Char.isDigit = [] && ds.length ≥ 1 && ds.length ≤ 6 then
      some ⟨h, m, sec, digitsToNat ds * 10 ^ (6 - ds.length)⟩
    else none
  | _ => none

/-- The class attribute `__isc2gfn_alias_dic` of `ISCBull2NLLocObs`
(hand-maintained ISC→GEOFON alias table). -/
def isc2gfn_alias_dic : List (String × String) :=
  [("GRF", "GR_GRA1"), ("SJI", "IA_SWJI"),
   ("CTA", "IU_CTAO"), ("DEIG", "MX_DHIG"),
   ("KNMB", "TW_KMNB"), ("MZBI", "GE_MSBI"),
   ("FLTG", "GE_FLT1"), ("HMBC", "CX_HMBCX"),
   ("SPITS", "NO_SPA0"), ("GEC2A", "GR_GEC2"),
   ("KRKI", "IA_KRK"), ("MYLDM", "MY_LDM"),
   ("SIMRM", "RM_SIM"), ("SLVN", "RM_SLV")]

/-- The class attribute `__isc2gfn_duplicate_dic` of `ISCBull2NLLocObs`
(hand-maintained duplicate-code table). -/
def isc2gfn_duplicate_dic : List (String × String) :=
  [("IVI", "G_IVI"), ("PTK", "KO_PTK"),
   ("PSI", "PS_PSI"), ("KWP", "GE_KWP"),
   ("SUW", "GE_SUW"), ("LAST", "GE_LAST"),
   ("SIVA", "GE_SIVA")]

/-- The attribute dictionary of class `ISCBull2NLLocObs`.  Because the two
table attributes are declared with two leading underscores inside the class
body, Python stores them under their name-mangled keys. -/
def classAttrs : List (String × List (String × String)) :=
  [("_ISCBull2NLLocObs__isc2gfn_alias_dic", isc2gfn_alias_dic),
   ("_ISCBull2NLLocObs__isc2gfn_duplicate_dic", isc2gfn_duplicate_dic)]

/-- `getattr` on class `ISCBull2NLLocObs`: `cls.<name>` raises
`AttributeError` when `<name>` is not an attribute of the class. -/
def getattrCls (name : String) : Except PyErr (List (String × String)) :=
  match classAttrs.lookup name with
  | some t => .ok t
  | none => .error (.attributeError name)

/-- Python dict membership + subscript pair used by the source's
`if station in d.keys(): station = d[station]` idiom. -/
def dictGetD (d : List (String × String)) (k dflt : String) : String :=
  match d.lookup k with
  | some v => v
  | none => dflt

/-- The station resolution chain exactly as executed by the source
(lines 294–302 of `isc_to_nll.py`): step (1) rewrites through the ISC
alias table; steps (2)–(4) are the `if`/`elif`/`elif` chain on
`cls.isc2gfn_alias_dic`, `cls.isc2gfn_duplicate_dic` and the GEOFON table.
The first two of those attribute reads use the *unmangled* names, which do
not exist on the class, so step (2) raises `AttributeError`. -/
def resolveStation (iscA gfn : List (String × String)) (station : String) :
    Except PyErr String := do
  let st1 := dictGetD iscA station station
  let aliasTbl ← getattrCls "isc2gfn_alias_dic"
  match aliasTbl.lookup st1 with
  | some v => pure v
  | none => do
    let dupTbl ← getattrCls "isc2gfn_duplicate_dic"
    match dupTbl.lookup st1 with
    | some v => pure v
    | none =>
      match gfn.lookup st1 with
      | some v => pure v
      | none => pure st1

/-- The station resolution chain with the two class-attribute reads
resolved to the attributes that actually exist on the class (the
name-mangled form that `cls.__isc2gfn_alias_dic` inside the class body
would have produced) — the chain the surrounding code intends. -/
def resolveStationIntended (iscA gfn : List (String × String))
    (station : String) : Except PyErr String := do
  let st1 := dictGetD iscA station station
  let aliasTbl ← getattrCls "_ISCBull2NLLocObs__isc2gfn_alias_dic"
  match aliasTbl.lookup st1 with
  | some v => pure v
  | none => do
    let dupTbl ← getattrCls "_ISCBull2NLLocObs__isc2gfn_duplicate_dic"
    match dupTbl.lookup st1 with
    | some v => pure v
    | none =>
      match gfn.lookup st1 with
      | some v => pure v
      | none => pure st1

/-- `__qual2err`: quality-to-uncertainty map.  A dict lookup on an onset
character outside the enumeration raises `KeyError`. -/
def qual2err (phase : String) (onset : Char) : Except PyErr ℚ :=
  let qual2err_Ptype : List (Char × ℚ) :=
    [('i', 2/10), ('e', 5/10), ('_', 1), ('q', 1)]
  let qual2err_nonP : List (Char × ℚ) :=
    [('i', 5/10), ('e', 1), ('_', 2), ('q', 2)]
  let tbl :=
    if "P".data.isPrefixOf phase.data || phase = "p" then qual2err_Ptype
    else qual2err_nonP
  match tbl.lookup onset with
  | some v => .ok v
  | none => .error .keyError

/-- A travel-time residual field: a parsed float or the literal string
`"N/A"` that the source stores when the field is blank. -/
inductive Resid where
  | val (q : ℚ)
  | na
  deriving DecidableEq, Repr

/-- One pick tuple `(onset_quality, arrival_date, arrival_time,
pick_uncertainty, tt_residual)` as appended to `phase_block_dic`. -/
structure PickT where
  onset : Char
  date : Nat
  time : Time
  err : ℚ
  res : Resid
  deriving DecidableEq, Repr

/-- Arrival time-of-day parsing with the source's fallback chain:
`strptime(s, "%H:%M:%S.%f")`, and on failure `strptime(s, "%H:%M:%S")`;
if both fail the `ValueError` escapes to the per-line handler. -/
def parseArrivalTime (s : String) : Except PyErr Time :=
  match strptimeHMSf s with
  | some t => .ok t
  | none =>
    match strptimeHMS s with
    | some t => .ok t
    | none => .error .valueError

/-- Arrival date–time derivation (lines 275–285): parse the time-of-day,
then apply the midnight-rollover rule against the origin time. -/
def arrivalOf (origin_date : Nat) (origin_time : Time) (s : String) :
    Except PyErr (Nat × Time) := do
  let t ← parseArrivalTime s
  if timeLt t origin_time then pure (origin_date + 1, t)
  else pure (origin_date, t)

/-- Field extraction from a phase line: station code, columns 0–5. -/
def stationOf (line : String) : String := pyStrip (pySlice line 0 5)

/-- Field extraction from a phase line: phase code, columns 19–27. -/
def phaseOf (line : String) : String := pyStrip (pySlice line 19 27)

/-- Field extraction from a phase line: travel-time residual, columns 41–46. -/
def ttResOf (line : String) : String := pyStrip (pySlice line 41 46)

/-- Residual handling (lines 287–290): a nonempty field must parse as a
float (else `ValueError` escapes to the per-line handler); a blank field
becomes the string `"N/A"`. -/
def parseResid (s : String) : Except PyErr Resid :=
  if s ≠ "" then
    match pyFloat s with
    | some q => .ok (.val q)
    | none => .error .valueError
  else .ok .na

/-- The mutable per-event state of the phase-block loop: the shared
`stations` list and `phase_block_dic`, keyed by (resolved station, phase),
in insertion order. -/
structure PState where
  stations : List String
  dic : List ((String × String) × List PickT)
  deriving DecidableEq, Repr

/-- `stations.append` guarded by `if station not in stations`. -/
def addStation (l : List String) (s : String) : List String :=
  if s ∈ l then l else l ++ [s]

/-- Append a pick to its `phase_block_dic[station, phase]` list, creating
the entry when absent (lines 306–309). -/
def dicAppend (d : List ((String × String) × List PickT))
    (k : String × String) (p : PickT) :
    List ((String × String) × List PickT) :=
  match d with
  | [] => [(k, [p])]
  | (k', v) :: r => if k' = k then (k', v ++ [p]) :: r else (k', v) :: dicAppend r k p

/-- The body of the per-line `try` block (lines 274–309): arrival time with
fallback, midnight rollover, residual, quality-to-uncertainty map, station
resolution.  Any `.error` is what the bare `except` swallows.  (The source
performs its two state mutations after the last fallible operation, so
modelling the guarded body as a pure computation whose result is committed
on success is faithful: a failing line commits nothing.) -/
def guardedLine (iscA gfn : List (String × String))
    (origin_date : Nat) (origin_time : Time)
    (line : String) (station phase ttRes : String) (onset : Char) :
    Except PyErr (String × PickT) := do
  let (arrival_date, arrival_time) ←
    arrivalOf origin_date origin_time (pyStrip (pySlice line 28 40))
  let res ← parseResid ttRes
  let err ← qual2err phase onset
  let st ← resolveStation iscA gfn station
  pure (st, ⟨onset, arrival_date, arrival_time, err, res⟩)

/-- One iteration of the phase-block loop (lines 266–311): extract fields,
read the onset-quality character `line[101]` (outside the `try` guard),
test eligibility, then run the guarded body; a guarded failure falls to
`except: continue`, leaving the state unchanged. -/
def processPhaseLine (iscA gfn : List (String × String)) (Phases : List String)
    (origin_date : Nat) (origin_time : Time)
    (st : PState) (line : String) : Except PyErr PState := do
  let station := stationOf line
  let phase := phaseOf line
  let ttRes := ttResOf line
  let onset ← pyIndex line 101
  if pyIsAlnum station && pyIsAlnum phase && Phases.contains phase then
    match guardedLine iscA gfn origin_date origin_time line station phase ttRes onset with
    | .error _ => pure st
    | .ok (stn, p) =>
      pure ⟨addStation st.stations stn, dicAppend st.dic (stn, phase) p⟩
  else pure st

/-- The phase-block loop over the block's lines.  An error escaping a line
(only the unguarded `line[101]` read can produce one) aborts the loop. -/
def processPhaseBlock (iscA gfn : List (String × String)) (Phases : List String)
    (origin_date : Nat) (origin_time : Time) :
    List String → PState → Except PyErr PState
  | [], st => .ok st
  | l :: ls, st => do
    let st' ← processPhaseLine iscA gfn Phases origin_date origin_time st l
    processPhaseBlock iscA gfn Phases origin_date origin_time ls st'

/-- Attribute access on a `datetime.time` object: the attributes that exist
are `hour`, `minute`, `second`, `microsecond` (and `tzinfo`); any other
name raises `AttributeError`. -/
def timeAttr (t : Time) (name : String) : Except PyErr Nat :=
  if name = "hour" then .ok t.hour
  else if name = "minute" then .ok t.minute
  else if name = "second" then .ok t.second
  else if name = "microsecond" then .ok t.microsecond
  else .error (.attributeError name)

/-- One summand of `__average_pick`'s tick total:
`t.hour*36e8 + t.minute*6e7 + t.second*1e6 + t.<attr>`, where `attr` is the
sub-second attribute name the code reads. -/
def pickTicks (attr : String) (t : Time) : Except PyErr Nat := do
  let ms ← timeAttr t attr
  pure (t.hour * 3600000000 + t.minute * 60000000 + t.second * 1000000 + ms)

/-- `sum(... for t in time_list)`: left-to-right, failing at the first
summand whose attribute read raises. -/
def sumTicks (attr : String) : List Time → Except PyErr Nat
  | [] => .ok 0
  | t :: ts => do
    let x ← pickTicks attr t
    let r ← sumTicks attr ts
    pure (x + r)

/-- The `type(x[-1])==float` filter of line 164: keep float residuals,
drop `"N/A"` strings. -/
def residQ : Resid → Option ℚ
  | .val q => some q
  | .na => none

/-- The microsecond tick count of a `datetime.time`, as summed by
`__average_pick` when the sub-second attribute read succeeds. -/
def tickVal (t : Time) : Nat :=
  t.hour * 3600000000 + t.minute * 60000000 + t.second * 1000000 + t.microsecond

/-- Python 2 `round` to an integer: half away from zero. -/
def pyRoundHalfAway (x : ℚ) : ℤ :=
  if 0 ≤ x then ⌊x + 1/2⌋ else -⌊-x + 1/2⌋

/-- Python 2 `round(x, 2)`. -/
def pyRound2 (x : ℚ) : ℚ := (pyRoundHalfAway (x * 100) : ℚ) / 100

/-- `__average_pick` (lines 136–170), parametrised by the name of the
sub-second attribute its tick sum reads from each `datetime.time`.  The
division/`divmod` chain of the source runs on the exact real average
(`total / len`), and `int` of each `divmod` component is its floor, so it
is computed here by flooring the average once and splitting with natural
division.  The final `dt.time(...)` constructor's range check is kept. -/
def average_pickAux (attr : String) (origin_date : Nat) (origin_time : Time)
    (pick_list : List PickT) : Except PyErr PickT := do
  let time_list := pick_list.map (·.time)
  let total ← sumTicks attr time_list
  if time_list.length = 0 then throw .zeroDivisionError
  else
    let a := total / time_list.length
    let microsec := a % 1000000
    let sec0 := a / 1000000
    let sec := sec0 % 60
    let mn0 := sec0 / 60
    let mn := mn0 % 60
    let hr := mn0 / 60
    if 23 < hr then throw .valueError
    else
      let arrival_time : Time := ⟨hr, mn, sec, microsec⟩
      let arrival_date :=
        if timeLt arrival_time origin_time then origin_date + 1 else origin_date
      let pick_uncertainty := ((pick_list.map (·.err)).sum) / (pick_list.length : ℚ)
      let r := (pick_list.map (·.res)).filterMap residQ
      let tt_residual :=
        if r.any (fun q => q != 0) then Resid.val (pyRound2 (r.sum / (r.length : ℚ)))
        else Resid.na
      pure ⟨'?', arrival_date, arrival_time, pick_uncertainty, tt_residual⟩

/-- `__average_pick` as the source executes it: the tick sum reads
`t.msecond`, an attribute `datetime.time` does not have. -/
def average_pick (origin_date : Nat) (origin_time : Time)
    (pick_list : List PickT) : Except PyErr PickT :=
  average_pickAux "msecond" origin_date origin_time pick_list

/-- `__average_pick` with the sub-second attribute read resolved to
`microsecond`, the attribute `datetime.time` actually has and the only one
the surrounding arithmetic can mean. -/
def average_pickIntended (origin_date : Nat) (origin_time : Time)
    (pick_list : List PickT) : Except PyErr PickT :=
  average_pickAux "microsecond" origin_date origin_time pick_list

/-- The reconciliation step of the writer loop (lines 324–328): a group
with more than one member is averaged, otherwise `phase_block_dic[k][0]`
is passed through. -/
def reconcilePicks (origin_date : Nat) (origin_time : Time)
    (pick_list : List PickT) : Except PyErr PickT :=
  if pick_list.length > 1 then average_pick origin_date origin_time pick_list
  else
    match pick_list with
    | p :: _ => .ok p
    | [] => .error .indexError

/-- `reconcilePicks` built on the `microsecond`-reading average. -/
def reconcilePicksIntended (origin_date : Nat) (origin_time : Time)
    (pick_list : List PickT) : Except PyErr PickT :=
  if pick_list.length > 1 then average_pickIntended origin_date origin_time pick_list
  else
    match pick_list with
    | p :: _ => .ok p
    | [] => .error .indexError

/-- The sort key of line 321: `(phase_block_dic[x][0][1],
phase_block_dic[x][0][2])`, the first stored pick's (arrival date, arrival
time).  Every entry of `phase_block_dic` is created with one pick and only
appended to, so the empty case is unreachable (a sentinel is supplied to
keep the function total). -/
def entryKey (e : (String × String) × List PickT) : Nat × Time :=
  match e.2 with
  | p :: _ => (p.date, p.time)
  | [] => (0, ⟨0, 0, 0, 0⟩)

/-- Comparison of two sort keys: lexicographic on (date, time), as Python
compares the key tuples. -/
def keyLe (a b : Nat × Time) : Bool :=
  a.1 < b.1 || (a.1 = b.1 && timeLe a.2 b.2)

/-- Line 321: `sorted(phase_block_dic.keys(), key=...)`, modelled on the
dict's entry list (Python's `sorted` is a stable mergesort; sorting entries
by the same key and projecting gives the same key order). -/
def sortEntries (d : List ((String × String) × List PickT)) :
    List ((String × String) × List PickT) :=
  d.mergeSort (fun e1 e2 => keyLe (entryKey e1) (entryKey e2))

/-- A leftmost-anchored match of the regex `\s+LIT\s+` at the head of `s`
(Python `re` semantics).  The greedy leading `\s+` must consume the whole
whitespace run (the literal starts with a non-space character, so
backtracking cannot place it earlier); the literal follows; at least one
more whitespace character follows, and the greedy trailing `\s+` consumes
that whole run.  Returns the text after the match. -/
def matchAt (lit : List Char) (s : List Char) : Option (List Char) :=
  match s with
  | [] => none
  | c :: _ =>
    if pyIsSpace c then
      let rest := s.dropWhile pyIsSpace
      if lit.isPrefixOf rest then
        let rest2 := rest.drop lit.length
        match rest2 with
        | [] => none
        | d :: _ => if pyIsSpace d then some (rest2.dropWhile pyIsSpace) else none
      else none
    else none

/-- `re.split(r'\s+LIT\s+', s)`: scan left to right; at each match emit the
accumulated part and continue after the match.  Structured with a fuel
argument (one unit per character scanned or skipped); `fuel = s.length`
always suffices because a match consumes at least one character. -/
def resplitFuel (lit : List Char) : Nat → List Char → List Char → List (List Char)
  | 0, s, acc => [acc.reverse ++ s]
  | fuel + 1, s, acc =>
    match s with
    | [] => [acc.reverse]
    | c :: cs =>
      match matchAt lit (c :: cs) with
      | some after => acc.reverse :: resplitFuel lit fuel after []
      | none => resplitFuel lit fuel cs (c :: acc)

/-- `re.split(r'\s+LIT\s+', s)`. -/
def pyResplit (lit : List Char) (s : List Char) : List (List Char) :=
  resplitFuel lit s.length s []

/-- The bulletin splitter (lines 208–209):
`re.split(r'\s+STOP\s+', textdata)[0]` then
`re.split(r'\s+Event\s+', ...)[1:]`. -/
def splitBulletin (text : String) : List String :=
  let split0 := (pyResplit "STOP".data text.data).headD []
  ((pyResplit "Event".data split0).drop 1).map String.mk

/-- Splitting a character list on a separator character (Python
`str.split(sep)`: empty parts preserved). -/
def splitOnChar (sep : Char) : List Char → List (List Char)
  | [] => [[]]
  | c :: r =>
    if c = sep then [] :: splitOnChar sep r
    else
      match splitOnChar sep r with
      | l :: ls => (c :: l) :: ls
      | [] => [[c]]

/-- The spec's line-based splitter, written from the claim's words: cut the
text into lines; discard the first line that contains only `STOP`
(bracketed by arbitrary whitespace) and everything after it; then split on
lines containing only `Event` (whitespace-bracketed), discarding the
preamble before the first such marker line; blocks are the joined line
groups, in source order. -/
def takeUntilStopLine : List (List Char) → List (List Char)
  | [] => []
  | l :: r =>
    if pyStripL l = "STOP".data then [] else l :: takeUntilStopLine r

/-- Group the lines that follow each marker line (state: `none` before the
first marker, `some blk` while inside a block, lines accumulated in
reverse). -/
def blocksAux (marker : List Char) :
    List (List Char) → Option (List (List Char)) → List (List (List Char))
  | [], none => []
  | [], some blk => [blk.reverse]
  | l :: r, none =>
    if pyStripL l = marker then blocksAux marker r (some [])
    else blocksAux marker r none
  | l :: r, some blk =>
    if pyStripL l = marker then blk.reverse :: blocksAux marker r (some [])
    else blocksAux marker r (some (l :: blk))

/-- The Bulletin Splitter as the claim describes it (line-based markers). -/
def splitBulletinSpec (text : String) : List String :=
  let ls := takeUntilStopLine (splitOnChar '\n' text.data)
  (blocksAux "Event".data ls none).map
    (fun b => String.mk (List.intercalate ['\n'] b))

/-- The index of the leftmost whitespace-bracketed occurrence of the
literal in `s` — the smallest start position at which `\s+LIT\s+` matches —
together with the text after that match. -/
def firstWsMatch (lit : List Char) (s : List Char) : Option (Nat × List Char) :=
  match (List.range s.length).find? (fun i => (matchAt lit (s.drop i)).isSome) with
  | none => none
  | some i => (matchAt lit (s.drop i)).map (fun after => (i, after))

/-- Splitting by repeated leftmost-first-occurrence search: the
specification-level description of `re.split` that the amended claim uses.
(Fuel as in `resplitFuel`.) -/
def resplitIdx (lit : List Char) : Nat → List Char → List (List Char)
  | 0, s => [s]
  | fuel + 1, s =>
    match firstWsMatch lit s with
    | none => [s]
    | some (i, after) => s.take i :: resplitIdx lit fuel after

/-- The amended splitter description: discard everything at or after the
leftmost whitespace-bracketed occurrence of `STOP`; split the rest at each
whitespace-bracketed occurrence of `Event` (leftmost-first); discard the
part before the first occurrence. -/
def splitBulletinAmended (text : String) : List String :=
  let split0 := (resplitIdx "STOP".data text.data.length text.data).headD []
  ((resplitIdx "Event".data split0.length split0).drop 1).map String.mk

/-- One record of the ISC registry (`__read_isc_stations`, lines 91–98):
split on commas, strip each field, unpack two codes and three floats.  A
record that does not have exactly five fields, or whose numeric fields do
not parse, raises (`ValueError`), aborting the whole load. -/
def parseIscLine (line : String) : Except PyErr (String × String) :=
  let items := (splitOnChar ',' line.data).map (fun cs => String.mk (pyStripL cs))
  match items with
  | [a, b, x, y, z] =>
    if (pyFloat x).isSome && (pyFloat y).isSome && (pyFloat z).isSome then
      .ok (a, b)
    else .error .valueError
  | _ => .error .valueError

/-- Python dict assignment `d[k] = v`: replace in place or append. -/
def dictSet (d : List (String × String)) (k v : String) :
    List (String × String) :=
  match d with
  | [] => [(k, v)]
  | (k', v') :: r => if k' = k then (k, v) :: r else (k', v') :: dictSet r k v

/-- The loop body of `__read_isc_stations`: records whose two codes are
equal are skipped, others update the alias dict. -/
def read_isc_stations_from : List String → List (String × String) →
    Except PyErr (List (String × String))
  | [], d => .ok d
  | l :: ls, d => do
    let (a, b) ← parseIscLine l
    if a ≠ b then read_isc_stations_from ls (dictSet d a b)
    else read_isc_stations_from ls d

/-- `__read_isc_stations` on the file's lines: the StationAliasTable. -/
def read_isc_stations (lines : List String) :
    Except PyErr (List (String × String)) :=
  read_isc_stations_from lines []

/-- The output-directory handling of `bulletin_parser` (lines 184–190).
`if not outdir:` takes the default branch for `None` or an empty string and
calls `os.mkdir`, which raises `OSError` when the path already exists;
otherwise `elif not isinstance(outdir):` calls `isinstance` with a single
argument, which raises `TypeError` unconditionally. -/
def mkdirDefaultOutdir (pathExists : String → Bool) : Except PyErr String :=
  if pathExists "./isc_data_nlloc_format" then .error .osError
  else .ok "./isc_data_nlloc_format"

/-- See `mkdirDefaultOutdir`: the full outdir-validation step. -/
def checkOutdir (outdir : Option String) (pathExists : String → Bool) :
    Except PyErr String :=
  match outdir with
  | none => mkdirDefaultOutdir pathExists
  | some s =>
    if s = "" then mkdirDefaultOutdir pathExists
    else .error .typeError

/-- The per-event output file name (line 314):
`''.join(('isc', eventID, '.nll'))`. -/
def outFileName (eventID : String) : String := "isc" ++ eventID ++ ".nll"

/-! Concrete scenario data used by the theorems below. -/

/-- An origin time of 12:00:00.000000. -/
def originT : Time := ⟨12, 0, 0, 0⟩

/-- Scenario pick 1: onset `i` on phase `P` at 12:30:00, so uncertainty
`qual2err "P" 'i' = 0.2`, blank residual. -/
def pickI : PickT := ⟨'i', 737000, ⟨12, 30, 0, 0⟩, 2/10, .na⟩

/-- Scenario pick 2: onset `e` on phase `P` at 12:30:01, so uncertainty
`qual2err "P" 'e' = 0.5`, blank residual. -/
def pickE : PickT := ⟨'e', 737000, ⟨12, 30, 1, 0⟩, 5/10, .na⟩

/-- A well-formed 102-column phase line: station `ABC` (cols 0–5), phase
`P` (cols 19–27), arrival time `12:30:00.500` (cols 28–40), blank residual
(cols 41–46), onset-quality character `i` at column 101. -/
def exLine : String :=
  "ABC                P        12:30:00.500                                                             i"

/-- The empty phase-block state. -/
def pst0 : PState := ⟨[], []⟩

/-- C1: the claim describes the four-step resolution chain and expects
`GRF` (absent from the ISC alias table) to be rewritten to `GR_GRA1` by the
embedded alias table.  The code instead reads `cls.isc2gfn_alias_dic`, an
attribute the class does not have (the table is stored under its
name-mangled key), so step (2) raises `AttributeError` for every station;
the embedded table does hold the mapping `GRF ↦ GR_GRA1`, and the chain
with the attribute reads resolved as intended produces it. -/
theorem c1_resolution_chain_raises :
    resolveStation [] [] "GRF" = .error (.attributeError "isc2gfn_alias_dic") ∧
    isc2gfn_alias_dic.lookup "GRF" = some "GR_GRA1" ∧
    resolveStationIntended [] [] "GRF" = .ok "GR_GRA1" ∧
    resolveStationIntended [("XYZ", "GRF")] [] "XYZ" = .ok "GR_GRA1" :=
  ⟨rfl, rfl, rfl, rfl⟩

/-- C2: the claim describes `__average_pick`'s output for a multi-member
group (mean time-of-day in ticks, unknown onset sentinel, mean uncertainty,
mean residual or `N/A`, and uncertainty 0.35 for onsets `i`/`e` on a P
phase).  The code's tick sum reads `t.msecond` — `datetime.time` has
`microsecond`, not `msecond` — so `__average_pick` raises `AttributeError`
on every such group; with the attribute read corrected the function returns
exactly the claimed merged pick, with uncertainty `(0.2 + 0.5)/2 = 0.35`. -/
theorem c2_average_pick_raises :
    qual2err "P" 'i' = .ok (2/10) ∧
    qual2err "P" 'e' = .ok (5/10) ∧
    average_pick 737000 originT [pickI, pickE] =
      .error (.attributeError "msecond") ∧
    average_pickIntended 737000 originT [pickI, pickE] =
      .ok ⟨'?', 737000, ⟨12, 30, 0, 500000⟩, 7/20, .na⟩ := by
  refine ⟨rfl, rfl, ?_, ?_⟩
  · rfl
  · show Except.ok _ = _
    norm_num [average_pickIntended, average_pickAux, sumTicks, pickTicks,
      timeAttr, pickI, pickE, originT, timeLt, residQ]

/-- C9: the claim says the per-event file `isc<EventID>.nll` is written
into the output directory, created if absent, with only a directory
creation failure fatal.  The file-name concatenation is as claimed, but the
directory handling is not: for any caller-supplied directory path the
guard `elif not isinstance(outdir):` calls `isinstance` with one argument,
which raises `TypeError` before anything is written, and the default
branch calls `os.mkdir` unconditionally, which raises `OSError` when the
directory already exists. -/
theorem c9_outdir_type_error :
    (∀ ex : String → Bool, checkOutdir (some "outdir") ex = .error .typeError) ∧
    outFileName "607162" = "isc607162.nll" ∧
    (∀ ex : String → Bool, ex "./isc_data_nlloc_format" = true →
      checkOutdir none ex = .error .osError) :=
  ⟨fun _ => rfl, rfl, by
    intro ex h
    simp [checkOutdir, mkdirDefaultOutdir, h]⟩

/-- C4: the midnight-rollover rule of lines 282–285 — whenever the arrival
time-of-day parse of a phase line succeeds, the derived arrival date is the
origin date plus one day exactly when the parsed time-of-day is strictly
less than the origin time-of-day, and the origin date otherwise. -/
theorem c4_midnight_rollover (oD : Nat) (oT : Time) (s : String)
    (d : Nat) (t : Time) (h : arrivalOf oD oT s = .ok (d, t)) :
    d = if timeLt t oT then oD + 1 else oD := by
  unfold arrivalOf at h
  cases hp : parseArrivalTime s with
  | error e => rw [hp] at h; simp [Bind.bind, Except.bind] at h
  | ok t' =>
    rw [hp] at h
    simp only [Bind.bind, Except.bind, pure, Except.pure] at h
    split at h <;> rename_i hlt <;> injection h with hpair <;>
      injection hpair with h1 h2 <;> subst h1 <;> subst h2
    · rw [if_pos hlt]
    · rw [if_neg hlt]

/-- Witness for C4 at a concrete input: a pick at 00:01:02.5 against an
origin time 23:59:00 parses and is advanced one day. -/
theorem c4_midnight_rollover_witness :
    arrivalOf 100 ⟨23, 59, 0, 0⟩ "00:01:02.5" = .ok (101, ⟨0, 1, 2, 500000⟩) ∧
    101 = if timeLt ⟨0, 1, 2, 500000⟩ ⟨23, 59, 0, 0⟩ then 100 + 1 else 100 :=
  ⟨rfl, c4_midnight_rollover 100 ⟨23, 59, 0, 0⟩ "00:01:02.5" 101
    ⟨0, 1, 2, 500000⟩ rfl⟩

/-- C10: a phase line shorter than 102 characters makes the unguarded read
`line[101]` — performed before the eligibility test and outside the
per-line `try` — raise `IndexError`, aborting the event's phase-block loop
with that error (regardless of the line's content, ineligible or not). -/
theorem c10_short_line_aborts (iscA gfn : List (String × String))
    (Phases : List String) (oD : Nat) (oT : Time) (st : PState)
    (l : String) (ls : List String) (h : l.length < 102) :
    processPhaseBlock iscA gfn Phases oD oT (l :: ls) st =
      .error .indexError := by
  have hnone : l.data[101]? = none := by
    apply List.getElem?_eq_none
    have : l.length = l.data.length := rfl
    omega
  simp [processPhaseBlock, processPhaseLine, pyIndex, hnone,
    Bind.bind, Except.bind]

/-- Witness for C10: a two-character line aborts the block even though its
blank station/phase fields would make it ineligible anyway. -/
theorem c10_short_line_aborts_witness :
    ("AB" : String).length < 102 ∧
    processPhaseBlock [] [] ["P"] 100 originT ["AB", exLine] pst0 =
      .error .indexError :=
  ⟨by decide, c10_short_line_aborts [] [] ["P"] 100 originT pst0 "AB" [exLine]
    (by decide)⟩

/-- C3 counterexample: the claim says *any* exception raised while
processing a phase line makes only that line be skipped, with no error
surfaced.  The two-character line `"AB"` raises `IndexError` at the
unguarded `line[101]` read, and the block's processing aborts with that
error instead of continuing (an empty block returns the state unchanged). -/
theorem c3_short_line_not_skipped :
    processPhaseBlock [] [] ["P"] 100 originT ["AB"] pst0 =
      .error .indexError ∧
    processPhaseBlock [] [] ["P"] 100 originT [] pst0 = .ok pst0 :=
  ⟨rfl, rfl⟩

/-- C3 as amended: any exception raised inside the per-line `try` guard —
that is, in the processing steps after the onset-quality read `line[101]`
and the eligibility test (malformed time, residual or quality-map or
station-resolution failure) — causes exactly that line to be skipped, with
no state committed and no error surfaced, and processing continues with
the remaining lines. -/
theorem c3_guarded_error_skips_line (iscA gfn : List (String × String))
    (Phases : List String) (oD : Nat) (oT : Time) (st : PState)
    (l : String) (ls : List String) (c : Char) (e : PyErr)
    (h1 : pyIndex l 101 = .ok c)
    (h2 : guardedLine iscA gfn oD oT l (stationOf l) (phaseOf l) (ttResOf l) c =
      .error e) :
    processPhaseBlock iscA gfn Phases oD oT (l :: ls) st =
      processPhaseBlock iscA gfn Phases oD oT ls st := by
  have hline : processPhaseLine iscA gfn Phases oD oT st l = .ok st := by
    unfold processPhaseLine
    rw [h1]
    simp only [Bind.bind, Except.bind]
    split
    · rw [h2]
      rfl
    · rfl
  conv_lhs => rw [processPhaseBlock]
  rw [hline]
  rfl

/-- Witness for C3 (amended): the 102-column line `exLine` is eligible and
its guarded processing fails (at the station-resolution attribute read);
the block leaves the state unchanged and continues. -/
theorem c3_guarded_error_skips_line_witness :
    pyIndex exLine 101 = .ok 'i' ∧
    guardedLine [] [] 100 originT exLine (stationOf exLine) (phaseOf exLine)
      (ttResOf exLine) 'i' = .error (.attributeError "isc2gfn_alias_dic") ∧
    processPhaseBlock [] [] ["P"] 100 originT [exLine] pst0 =
      processPhaseBlock [] [] ["P"] 100 originT [] pst0 :=
  ⟨rfl, rfl, c3_guarded_error_skips_line [] [] ["P"] 100 originT pst0 exLine []
    'i' (.attributeError "isc2gfn_alias_dic") rfl rfl⟩

/-- Dict assignment and lookup commute in the expected way. -/
theorem dictSet_lookup (d : List (String × String)) (k v a : String) :
    (dictSet d k v).lookup a = if a = k then some v else d.lookup a := by
  induction d with
  | nil =>
    by_cases h : a = k
    · subst h; simp [dictSet]
    · have hb : (a == k) = false := beq_eq_false_iff_ne.mpr h
      simp [dictSet, List.lookup_cons, hb, h]
  | cons hd tl ih =>
    obtain ⟨k', v'⟩ := hd
    by_cases hk : k' = k
    · subst hk
      unfold dictSet
      rw [if_pos rfl]
      by_cases h : a = k'
      · subst h; simp
      · have hb : (a == k') = false := beq_eq_false_iff_ne.mpr h
        simp [List.lookup_cons, hb, h]
    · unfold dictSet
      rw [if_neg hk]
      by_cases h : a = k'
      · subst h
        rw [if_neg hk]
        simp [List.lookup_cons_self]
      · have hb : (a == k') = false := beq_eq_false_iff_ne.mpr h
        simp only [List.lookup_cons, hb]
        exact ih

/-- Loader invariant: a table with no key-equals-value entry stays that way
through the loop (equal-code records are skipped, others insert a pair of
distinct codes). -/
theorem read_from_no_fixpoint :
    ∀ (lines : List String) (d tbl : List (String × String)),
    read_isc_stations_from lines d = .ok tbl →
    (∀ a b, d.lookup a = some b → a ≠ b) →
    (∀ a b, tbl.lookup a = some b → a ≠ b) := by
  intro lines
  induction lines with
  | nil =>
    intro d tbl h hinv
    simp only [read_isc_stations_from] at h
    injection h with h'
    exact h' ▸ hinv
  | cons l ls ih =>
    intro d tbl h hinv
    simp only [read_isc_stations_from] at h
    cases hp : parseIscLine l with
    | error e => rw [hp] at h; simp [Bind.bind, Except.bind] at h
    | ok ab =>
      obtain ⟨a0, b0⟩ := ab
      rw [hp] at h
      simp only [Bind.bind, Except.bind] at h
      split at h
      · rename_i hne
        refine ih _ _ h ?_
        intro a b hl
        rw [dictSet_lookup] at hl
        split at hl
        · rename_i ha
          injection hl with hb
          subst ha; subst hb
          exact hne
        · exact hinv _ _ hl
      · exact ih _ _ h hinv

/-- Loader invariant: existing keys survive the rest of the loop. -/
theorem read_from_keys_mono :
    ∀ (lines : List String) (d tbl : List (String × String)),
    read_isc_stations_from lines d = .ok tbl →
    ∀ k, (d.lookup k).isSome → (tbl.lookup k).isSome := by
  intro lines
  induction lines with
  | nil =>
    intro d tbl h k hk
    simp only [read_isc_stations_from] at h
    injection h with h'
    exact h' ▸ hk
  | cons l ls ih =>
    intro d tbl h k hk
    simp only [read_isc_stations_from] at h
    cases hp : parseIscLine l with
    | error e => rw [hp] at h; simp [Bind.bind, Except.bind] at h
    | ok ab =>
      obtain ⟨a0, b0⟩ := ab
      rw [hp] at h
      simp only [Bind.bind, Except.bind] at h
      split at h
      · refine ih _ _ h k ?_
        rw [dictSet_lookup]
        split
        · simp
        · exact hk
      · exact ih _ _ h k hk

/-- Loader: every successfully parsed record with distinct codes leaves its
altCode as a key of the final table. -/
theorem read_from_record_key :
    ∀ (lines : List String) (d tbl : List (String × String)),
    read_isc_stations_from lines d = .ok tbl →
    ∀ l ∈ lines, ∀ a b, parseIscLine l = .ok (a, b) → a ≠ b →
    (tbl.lookup a).isSome := by
  intro lines
  induction lines with
  | nil => intro d tbl _ l hl; cases hl
  | cons l0 ls ih =>
    intro d tbl h l hl a b hp hab
    simp only [read_isc_stations_from] at h
    cases hp0 : parseIscLine l0 with
    | error e => rw [hp0] at h; simp [Bind.bind, Except.bind] at h
    | ok ab =>
      obtain ⟨a0, b0⟩ := ab
      rw [hp0] at h
      simp only [Bind.bind, Except.bind] at h
      rcases List.mem_cons.mp hl with hl0 | hls
      · subst hl0
        rw [hp] at hp0
        injection hp0 with hpair
        injection hpair with ha hb
        subst ha; subst hb
        rw [if_pos hab] at h
        refine read_from_keys_mono ls _ _ h a ?_
        rw [dictSet_lookup, if_pos rfl]
        simp
      · split at h
        · exact ih _ _ h l hls a b hp hab
        · exact ih _ _ h l hls a b hp hab

/-- Loader: every entry of the final table comes from some record of the
file (or was already in the starting table). -/
theorem read_from_provenance :
    ∀ (lines : List String) (d tbl : List (String × String)),
    read_isc_stations_from lines d = .ok tbl →
    ∀ a b, tbl.lookup a = some b →
    d.lookup a = some b ∨ ∃ l ∈ lines, parseIscLine l = .ok (a, b) := by
  intro lines
  induction lines with
  | nil =>
    intro d tbl h a b hl
    simp only [read_isc_stations_from] at h
    injection h with h'
    exact Or.inl (h' ▸ hl)
  | cons l0 ls ih =>
    intro d tbl h a b hl
    simp only [read_isc_stations_from] at h
    cases hp0 : parseIscLine l0 with
    | error e => rw [hp0] at h; simp [Bind.bind, Except.bind] at h
    | ok ab =>
      obtain ⟨a0, b0⟩ := ab
      rw [hp0] at h
      simp only [Bind.bind, Except.bind] at h
      split at h
      · rcases ih _ _ h a b hl with hd | ⟨l, hls, hpl⟩
        · rw [dictSet_lookup] at hd
          split at hd
          · rename_i ha
            injection hd with hb
            subst ha; subst hb
            exact Or.inr ⟨l0, List.mem_cons_self .., hp0⟩
          · exact Or.inl hd
        · exact Or.inr ⟨l, List.mem_cons_of_mem _ hls, hpl⟩
      · rcases ih _ _ h a b hl with hd | ⟨l, hls, hpl⟩
        · exact Or.inl hd
        · exact Or.inr ⟨l, List.mem_cons_of_mem _ hls, hpl⟩

/-- C6: for every registry file that loads successfully, the resulting
StationAliasTable has no entry whose key equals its value; every record
with distinct codes contributes its altCode as a key; and every entry of
the table stems from some record of the file. -/
theorem c6_alias_table_no_fixpoint (lines : List String)
    (tbl : List (String × String)) (h : read_isc_stations lines = .ok tbl) :
    (∀ a b, tbl.lookup a = some b → a ≠ b) ∧
    (∀ l ∈ lines, ∀ a b, parseIscLine l = .ok (a, b) → a ≠ b →
      (tbl.lookup a).isSome) ∧
    (∀ a b, tbl.lookup a = some b → ∃ l ∈ lines, parseIscLine l = .ok (a, b)) := by
  refine ⟨read_from_no_fixpoint lines [] tbl h (by simp [List.lookup]),
    read_from_record_key lines [] tbl h, ?_⟩
  intro a b hl
  rcases read_from_provenance lines [] tbl h a b hl with hd | hrec
  · simp [List.lookup] at hd
  · exact hrec

/-- Witness for C6: a two-record file whose second record has equal codes
loads to the single-entry table, which satisfies all three properties at
the concrete lookups. -/
theorem c6_alias_table_no_fixpoint_witness :
    read_isc_stations ["AAA, BBB, 12.5, -3.25, 100", "CCC, CCC, 1, 2, 3e1"] =
      .ok [("AAA", "BBB")] ∧
    (∀ a b, ([("AAA", "BBB")] : List (String × String)).lookup a = some b →
      a ≠ b) :=
  ⟨rfl, (c6_alias_table_no_fixpoint
    ["AAA, BBB, 12.5, -3.25, 100", "CCC, CCC, 1, 2, 3e1"]
    [("AAA", "BBB")] rfl).1⟩

/-- The tick sum of the unmodified source raises `AttributeError` at the
first element's `t.msecond` read. -/
theorem sumTicks_msecond_err (t : Time) (ts : List Time) :
    sumTicks "msecond" (t :: ts) = .error (.attributeError "msecond") := rfl

/-- `__average_pick` raises on every nonempty pick list. -/
theorem average_pick_err (oD : Nat) (oT : Time) (l : List PickT)
    (h : l ≠ []) : average_pick oD oT l = .error (.attributeError "msecond") := by
  cases l with
  | nil => exact absurd rfl h
  | cons p r => rfl

/-- The tick sum with the attribute read corrected evaluates to the sum of
the elements' microsecond ticks. -/
theorem sumTicks_microsecond_ok (ts : List Time) :
    sumTicks "microsecond" ts = .ok ((ts.map tickVal).sum) := by
  induction ts with
  | nil => rfl
  | cons t r ih =>
    simp [sumTicks, pickTicks, timeAttr, ih, tickVal, Bind.bind, Except.bind,
      pure, Except.pure]

/-- The scalar core of `__average_pick` after the tick sum: a function of
the tick total, member count, uncertainty sum, and the presence flag, sum
and length of the float residual sublist. -/
def avgAssemble (origin_date : Nat) (origin_time : Time) (total n : Nat)
    (errsum : ℚ) (anyRes : Bool) (rsum : ℚ) (rlen : Nat) : Except PyErr PickT :=
  if n = 0 then throw .zeroDivisionError
  else
    let a := total / n
    let microsec := a % 1000000
    let sec0 := a / 1000000
    let sec := sec0 % 60
    let mn0 := sec0 / 60
    let mn := mn0 % 60
    let hr := mn0 / 60
    if 23 < hr then throw .valueError
    else
      let arrival_time : Time := ⟨hr, mn, sec, microsec⟩
      let arrival_date :=
        if timeLt arrival_time origin_time then origin_date + 1 else origin_date
      let pick_uncertainty := errsum / (n : ℚ)
      let tt_residual :=
        if anyRes then Resid.val (pyRound2 (rsum / (rlen : ℚ))) else Resid.na
      pure ⟨'?', arrival_date, arrival_time, pick_uncertainty, tt_residual⟩

/-- The corrected average factors through `avgAssemble` applied to
permutation-invariant aggregates of the pick list. -/
theorem average_pickIntended_eq (oD : Nat) (oT : Time) (l : List PickT) :
    average_pickIntended oD oT l =
      avgAssemble oD oT (((l.map (·.time)).map tickVal).sum) l.length
        ((l.map (·.err)).sum)
        (((l.map (·.res)).filterMap residQ).any (fun q => q != 0))
        (((l.map (·.res)).filterMap residQ).sum)
        (((l.map (·.res)).filterMap residQ).length) := by
  unfold average_pickIntended average_pickAux avgAssemble
  simp only [sumTicks_microsecond_ok, Bind.bind, Except.bind, List.length_map]

/-- Presence testing (`any`, Python truthiness) is invariant under
permutation. -/
theorem perm_any {r r' : List ℚ} (h : r.Perm r') (g : ℚ → Bool) :
    r.any g = r'.any g := by
  simp only [List.any_eq]
  rw [decide_eq_decide]
  constructor <;> rintro ⟨x, hx, hgx⟩
  · exact ⟨x, h.mem_iff.mp hx, hgx⟩
  · exact ⟨x, h.mem_iff.mpr hx, hgx⟩

/-- C7: the Pick Reconciler's result is invariant under any permutation of
the group's members — both for the reconciler as the source executes it
(a single-member group passes through; a larger group always hits the
`msecond` attribute error) and for the reconciler with the attribute read
corrected, where the tick mean, mean uncertainty and residual handling are
genuine permutation-invariant aggregates. -/
theorem c7_reconcile_perm (oD : Nat) (oT : Time) (l l' : List PickT)
    (h : l.Perm l') :
    reconcilePicks oD oT l = reconcilePicks oD oT l' ∧
    reconcilePicksIntended oD oT l = reconcilePicksIntended oD oT l' := by
  have hlen := h.length_eq
  have hsingle : ¬ l.length > 1 →
      (l = [] ∧ l' = []) ∨ ∃ p, l = [p] ∧ l' = [p] := by
    intro h1
    cases l with
    | nil =>
      left
      exact ⟨rfl, List.eq_nil_of_length_eq_zero hlen.symm⟩
    | cons p r =>
      cases r with
      | nil => exact Or.inr ⟨p, rfl, List.perm_singleton.mp h.symm⟩
      | cons q s => exact absurd (by simp) h1
  constructor
  · unfold reconcilePicks
    by_cases h1 : l.length > 1
    · rw [if_pos h1, if_pos (hlen ▸ h1)]
      have hne : l ≠ [] := by intro he; rw [he] at h1; simp at h1
      have hne' : l' ≠ [] := by
        intro he; rw [he] at hlen; rw [List.eq_nil_of_length_eq_zero hlen] at h1
        simp at h1
      rw [average_pick_err _ _ _ hne, average_pick_err _ _ _ hne']
    · rw [if_neg h1, if_neg (hlen ▸ h1)]
      rcases hsingle h1 with ⟨he, he'⟩ | ⟨p, he, he'⟩ <;> rw [he, he']
  · unfold reconcilePicksIntended
    by_cases h1 : l.length > 1
    · rw [if_pos h1, if_pos (hlen ▸ h1)]
      have htot : ((l.map (·.time)).map tickVal).sum =
          ((l'.map (·.time)).map tickVal).sum := ((h.map _).map _).sum_eq
      have herr : (l.map (·.err)).sum = (l'.map (·.err)).sum := (h.map _).sum_eq
      have hres : ((l.map (·.res)).filterMap residQ).Perm
          ((l'.map (·.res)).filterMap residQ) := (h.map _).filterMap _
      rw [average_pickIntended_eq, average_pickIntended_eq, htot, hlen, herr,
        perm_any hres, hres.sum_eq, hres.length_eq]
    · rw [if_neg h1, if_neg (hlen ▸ h1)]
      rcases hsingle h1 with ⟨he, he'⟩ | ⟨p, he, he'⟩ <;> rw [he, he']

/-- Witness for C7: swapping the two members of the `i`/`e` scenario group
leaves the reconciled result unchanged. -/
theorem c7_reconcile_perm_witness :
    ([pickI, pickE] : List PickT).Perm [pickE, pickI] ∧
    reconcilePicks 737000 originT [pickI, pickE] =
      reconcilePicks 737000 originT [pickE, pickI] :=
  ⟨List.Perm.swap pickE pickI [],
    (c7_reconcile_perm 737000 originT [pickI, pickE] [pickE, pickI]
      (List.Perm.swap pickE pickI [])).1⟩

/-- The key order used by the writer's sort is transitive. -/
theorem keyLe_trans (a b c : Nat × Time) :
    keyLe a b = true → keyLe b c = true → keyLe a c = true := by
  obtain ⟨d1, h1, m1, s1, u1⟩ := a
  obtain ⟨d2, h2, m2, s2, u2⟩ := b
  obtain ⟨d3, h3, m3, s3, u3⟩ := c
  simp only [keyLe, timeLe, timeLt, Bool.or_eq_true, Bool.and_eq_true,
    Bool.not_eq_true', Bool.or_eq_false_iff, Bool.and_eq_false_iff,
    decide_eq_true_eq, decide_eq_false_iff_not]
  omega

/-- The key order used by the writer's sort is total. -/
theorem keyLe_total (a b : Nat × Time) :
    (keyLe a b || keyLe b a) = true := by
  obtain ⟨d1, h1, m1, s1, u1⟩ := a
  obtain ⟨d2, h2, m2, s2, u2⟩ := b
  simp only [keyLe, timeLe, timeLt, Bool.or_eq_true, Bool.and_eq_true,
    Bool.not_eq_true', Bool.or_eq_false_iff, Bool.and_eq_false_iff,
    decide_eq_true_eq, decide_eq_false_iff_not]
  omega

/-- First concrete dict entry for the C8 scenario: its (single) pick
arrives at 10:00:00. -/
def entAt10 : (String × String) × List PickT :=
  (("S1", "P"), [⟨'i', 100, ⟨10, 0, 0, 0⟩, 2/10, .na⟩])

/-- Second concrete dict entry for the C8 scenario: its pick arrives at
09:30:00. -/
def entAt0930 : (String × String) × List PickT :=
  (("S2", "P"), [⟨'i', 100, ⟨9, 30, 0, 0⟩, 2/10, .na⟩])

/-- C8: the writer emits one line per (station, phase) key in the order
produced by the line-321 sort, which is nondecreasing in the pick's
(arrival date, arrival time); in particular the key whose pick arrives at
09:30:00 precedes the key whose pick arrives at 10:00:00. -/
theorem c8_output_sorted :
    (∀ d : List ((String × String) × List PickT),
      List.Pairwise (fun e1 e2 => keyLe (entryKey e1) (entryKey e2) = true)
        (sortEntries d)) ∧
    sortEntries [entAt10, entAt0930] = [entAt0930, entAt10] := by
  constructor
  · intro d
    exact List.sorted_mergeSort
      (fun a b c => keyLe_trans (entryKey a) (entryKey b) (entryKey c))
      (fun a b => keyLe_total (entryKey a) (entryKey b)) d
  · simp [sortEntries, List.mergeSort, entAt10, entAt0930, entryKey, keyLe,
      timeLe, timeLt]

/-- A successful match consumes at least one character, so the remainder is
strictly shorter. -/
theorem matchAt_length {lit s after : List Char} (h : matchAt lit s = some after) :
    after.length < s.length := by
  cases s with
  | nil => exact absurd h (by simp [matchAt])
  | cons c cs =>
    simp only [matchAt] at h
    split at h
    case isTrue hc =>
      split at h
      case isTrue hpre =>
        split at h
        case h_1 => cases h
        case h_2 d ds heq =>
          split at h
          case isTrue hd =>
            injection h with h'
            subst h'
            have h1 : (((c :: cs).dropWhile pyIsSpace).drop lit.length).length ≤
                ((c :: cs).dropWhile pyIsSpace).length := by
              rw [List.length_drop]; omega
            have h2 : ((c :: cs).dropWhile pyIsSpace).length ≤ cs.length := by
              rw [List.dropWhile_cons_of_pos hc]
              exact (List.dropWhile_sublist _).length_le
            have h3 : ((((c :: cs).dropWhile pyIsSpace).drop
                lit.length).dropWhile pyIsSpace).length ≤
                (((c :: cs).dropWhile pyIsSpace).drop lit.length).length :=
              (List.dropWhile_sublist _).length_le
            simp only [List.length_cons]
            omega
          case isFalse => cases h
      case isFalse => cases h
    case isFalse => cases h

/-- No match starts in the empty text. -/
theorem firstWsMatch_nil (lit : List Char) : firstWsMatch lit [] = none := rfl

/-- A match at the head of the text is the leftmost one. -/
theorem firstWsMatch_cons_some {lit : List Char} {c : Char} {cs after : List Char}
    (h : matchAt lit (c :: cs) = some after) :
    firstWsMatch lit (c :: cs) = some (0, after) := by
  unfold firstWsMatch
  rw [List.length_cons, List.range_succ_eq_map, List.find?_cons]
  simp [h]

/-- With no match at the head, the leftmost match is the tail's leftmost
match, shifted by one position. -/
theorem firstWsMatch_cons_none {lit : List Char} {c : Char} {cs : List Char}
    (h : matchAt lit (c :: cs) = none) :
    firstWsMatch lit (c :: cs) =
      (firstWsMatch lit cs).map (fun p => (p.1 + 1, p.2)) := by
  unfold firstWsMatch
  rw [List.length_cons, List.range_succ_eq_map, List.find?_cons]
  simp only [List.drop_zero, h, Option.isSome_none]
  rw [List.find?_map]
  have hcomp : ((fun i => (matchAt lit ((c :: cs).drop i)).isSome) ∘ Nat.succ)
      = fun i => (matchAt lit (cs.drop i)).isSome := by
    funext i
    simp [Function.comp, List.drop_succ_cons]
  rw [hcomp]
  cases hf : (List.range cs.length).find? (fun i => (matchAt lit (cs.drop i)).isSome) with
  | none => simp
  | some i =>
    simp only [Option.map_some, List.drop_succ_cons]
    cases hmi : matchAt lit (cs.drop i) <;> simp [hmi]

/-- The text after the leftmost match is strictly shorter than the text. -/
theorem firstWsMatch_length {lit s : List Char} {i : Nat} {after : List Char}
    (h : firstWsMatch lit s = some (i, after)) : after.length < s.length := by
  unfold firstWsMatch at h
  cases hf : (List.range s.length).find? (fun j => (matchAt lit (s.drop j)).isSome) with
  | none => rw [hf] at h; cases h
  | some j =>
    rw [hf] at h
    have hx : Option.map (fun after => (j, after)) (matchAt lit (s.drop j)) =
        some (i, after) := h
    cases hm : matchAt lit (s.drop j) with
    | none => rw [hm] at hx; cases hx
    | some a =>
      rw [hm] at hx
      injection hx with h'
      injection h' with h1 h2
      have hlt := matchAt_length hm
      have hd : (s.drop j).length ≤ s.length := by
        rw [List.length_drop]; omega
      rw [h2] at hlt
      omega

/-- Any fuel at least the text's length gives the same split. -/
theorem resplitIdx_fuel (lit : List Char) :
    ∀ (f1 f2 : Nat) (s : List Char), s.length ≤ f1 → s.length ≤ f2 →
    resplitIdx lit f1 s = resplitIdx lit f2 s := by
  intro f1
  induction f1 with
  | zero =>
    intro f2 s h1 h2
    have hs : s = [] := List.eq_nil_of_length_eq_zero (by omega)
    subst hs
    cases f2 with
    | zero => rfl
    | succ m => simp [resplitIdx, firstWsMatch_nil]
  | succ n ih =>
    intro f2 s h1 h2
    cases f2 with
    | zero =>
      have hs : s = [] := List.eq_nil_of_length_eq_zero (by omega)
      subst hs
      simp [resplitIdx, firstWsMatch_nil]
    | succ m =>
      unfold resplitIdx
      cases hm : firstWsMatch lit s with
      | none => rfl
      | some p =>
        obtain ⟨i, after⟩ := p
        have hlen := firstWsMatch_length hm
        dsimp only
        rw [ih m after (by omega) (by omega)]

/-- One unfolding of the leftmost-occurrence split. -/
theorem resplitIdx_eq_match (lit : List Char) (s : List Char) :
    resplitIdx lit s.length s =
      match firstWsMatch lit s with
      | none => [s]
      | some (i, after) => s.take i :: resplitIdx lit after.length after := by
  cases hl : s.length with
  | zero =>
    have hs : s = [] := List.eq_nil_of_length_eq_zero hl
    subst hs
    rfl
  | succ n =>
    simp only [resplitIdx]
    cases hm : firstWsMatch lit s with
    | none => rfl
    | some p =>
      obtain ⟨i, after⟩ := p
      have hlen := firstWsMatch_length hm
      dsimp only
      rw [resplitIdx_fuel lit n after.length after (by omega) le_rfl]

/-- The scanning split of `re.split` equals the leftmost-first-occurrence
split: the scan's first emitted part ends at the first position where
`\s+LIT\s+` matches, and the scan then restarts after that match. -/
theorem resplitFuel_eq (lit : List Char) :
    ∀ (fuel : Nat) (s acc : List Char), s.length ≤ fuel →
    resplitFuel lit fuel s acc =
      match firstWsMatch lit s with
      | none => [acc.reverse ++ s]
      | some (i, after) =>
        (acc.reverse ++ s.take i) :: resplitIdx lit after.length after := by
  intro fuel
  induction fuel with
  | zero =>
    intro s acc h
    have hs : s = [] := List.eq_nil_of_length_eq_zero (by omega)
    subst hs
    simp [resplitFuel, firstWsMatch_nil]
  | succ n ih =>
    intro s acc h
    cases s with
    | nil => simp [resplitFuel, firstWsMatch_nil]
    | cons c cs =>
      cases hm : matchAt lit (c :: cs) with
      | some after =>
        rw [firstWsMatch_cons_some hm]
        conv_lhs => rw [resplitFuel]
        rw [hm]
        dsimp only
        have hlen := matchAt_length hm
        have haux : resplitFuel lit n after [] = resplitIdx lit after.length after := by
          rw [ih after [] (by simp only [List.length_cons] at hlen h; omega),
            resplitIdx_eq_match]
          cases firstWsMatch lit after with
          | none => simp
          | some p => obtain ⟨j, a2⟩ := p; simp
        rw [haux]
        simp
      | none =>
        rw [firstWsMatch_cons_none hm]
        conv_lhs => rw [resplitFuel]
        rw [hm]
        dsimp only
        rw [ih cs (c :: acc) (by simp only [List.length_cons] at h; omega)]
        cases hm2 : firstWsMatch lit cs with
        | none => simp
        | some p =>
          obtain ⟨j, a2⟩ := p
          simp [List.take_succ_cons]

/-- The `re.split` model equals the leftmost-occurrence description. -/
theorem pyResplit_eq (lit s : List Char) :
    pyResplit lit s = resplitIdx lit s.length s := by
  unfold pyResplit
  rw [resplitFuel_eq lit s.length s [] le_rfl, resplitIdx_eq_match]
  cases firstWsMatch lit s with
  | none => simp
  | some p => obtain ⟨i, after⟩ := p; simp

/-- C5 counterexample: the splitter's markers are not line-based.  In the
text `" Event \nAAA\nSTOP"` the final line contains only `STOP`, so the
claimed algorithm discards it and returns the block `"AAA"`; the code's
regex `\s+STOP\s+` requires whitespace after the literal, finds no terminal
marker, and returns `"AAA\nSTOP"`. -/
theorem c5_marker_not_line_based :
    splitBulletin " Event \nAAA\nSTOP" = ["AAA\nSTOP"] ∧
    splitBulletinSpec " Event \nAAA\nSTOP" = ["AAA"] ∧
    splitBulletin " Event \nAAA\nSTOP" ≠
      splitBulletinSpec " Event \nAAA\nSTOP" :=
  ⟨rfl, rfl, by decide⟩

/-- C5 as amended: the Splitter discards everything at or after the
*leftmost occurrence* of `STOP` preceded and followed by at least one
whitespace character (the marker need not be alone on a line, and an
unbracketed `STOP` at the very start or end of the text is not a
terminal marker); it then splits the remaining text at each leftmost-first
occurrence of `Event` bracketed by whitespace on both sides, discards the
part before the first such occurrence, and returns the per-event blocks in
source order. -/
theorem c5_splitter_leftmost_occurrence (text : String) :
    splitBulletin text = splitBulletinAmended text := by
  simp only [splitBulletin, splitBulletinAmended, pyResplit_eq]
